import Mathlib

/-
Verification of the kraken local stateful file store (package `base`) and the
registry-backend blob client boundary, against their specification.

The repository sources available here contain the `base` package interface
declarations (FileState, Verify, FileEntry, FileMap, FileStore), the constants
of `lib/store/internal/const.go`, and the registry-backend blob client tests.
The concrete implementations behind the interfaces are not part of the
available sources, so the operational model below is built from the
specification's words; every such definition is marked `Modelled from the
spec:`. Constants and the interface-level facts (such as `noopVerify`) come
directly from the source.
-/

namespace Kraken

/-- Modelled from the spec: the error taxonomy of the store (spec section 7):
NotFound, AlreadyExists, WrongState (distinct from NotFound), IOFailure,
InvalidArgument. The Go implementation uses typed error values; here they are
the constructors of one inductive type. -/
inductive StoreError where
  | notFound
  | alreadyExists
  | wrongState
  | ioFailure
  | invalidArgument
deriving DecidableEq

/-- FileState (source part_000, lines 60-64): an opaque value whose only
required capability is to yield the directory it represents. A file can only
be in one state at any given time. -/
structure FileState where
  directory : String
deriving DecidableEq

/-- Blob names are string identifiers (spec section 3). -/
abbrev Name := String

/-- A metadata type is an identifier plus a naming/suffix convention
(spec section 3); modelled by its identifying string. -/
abbrev MetadataType := String

/-- Verify (source part_000, line 67): a predicate passed into FileEntry
functions, run after the entry lock is acquired; it may inspect the entry's
current state and return an error to abort the operation before any mutation.
Modelled as a function from the entry's current state to an optional error. -/
abbrev Verify := FileState → Option StoreError

/-- noopVerify (source part_000, line 69): the package's no-op verification,
which always succeeds (returns nil in Go, here `none`). -/
def noopVerify : Verify := fun _ => none

/-- Modelled from the spec: the whole observable state of one store instance.
`entries` is the file map's name-to-recorded-state association (the stateful
file entry layer, spec sections 3 and 4.4); `disk` is the set of on-disk data
file placements, one pair per (name, state directory) holding the blob's data
file (spec section 3); `meta` maps (name, metadata type) to the bytes of the
metadata side-file (spec section 4.2). Data bytes are not themselves subject
to any verified property, so a placement records existence and location. -/
structure StoreState where
  entries : List (Name × FileState)
  disk : List (Name × FileState)
  meta : List ((Name × MetadataType) × List Nat)
deriving DecidableEq

/-- Association-list lookup with decidable key equality. -/
def alookup {α β : Type} [DecidableEq α] (k : α) : List (α × β) → Option β
  | [] => none
  | (k', v) :: r => if k' = k then some v else alookup k r

/-- Association-list update: bind `k` to `v`, dropping any previous binding. -/
def aset {α β : Type} [DecidableEq α] (k : α) (v : β) (l : List (α × β)) :
    List (α × β) :=
  (k, v) :: l.filter (fun p => decide (p.1 ≠ k))

/-- The states under whose directories the data file of blob `n` is present
on disk (spec section 3: this must always have at most one element). -/
def placedList (d : List (Name × FileState)) (n : Name) : List FileState :=
  (d.filter (fun p => decide (p.1 = n))).map Prod.snd

/-- The states under whose directories blob `n` is present, for a store. -/
def StoreState.placedIn (s : StoreState) (n : Name) : List FileState :=
  placedList s.disk n

/-- The metadata side-files currently present for blob `n`. -/
def StoreState.metaOf (s : StoreState) (n : Name) :
    List (MetadataType × List Nat) :=
  (s.meta.filter (fun e => decide (e.1.1 = n))).map (fun e => (e.1.2, e.2))

/-- Modelled from the spec: FileEntryInternal.Create (spec section 4.2):
creates a new data file at the entry's path under the target directory;
fails with AlreadyExists if a file is already present. -/
def FileEntryInternal.Create (n : Name) (target : FileState) (s : StoreState) :
    Except StoreError StoreState :=
  if s.placedIn n = [] then
    .ok { s with disk := (n, target) :: s.disk }
  else
    .error .alreadyExists

/-- Modelled from the spec: FileEntryInternal.Move (spec section 4.2): renames
the entry's subtree (data file plus metadata files) into the target directory
in a single atomic directory-level rename, preserving the blob's name. Fails
with NotFound if the source is absent, AlreadyExists if the destination is
occupied. The rename is one step: no intermediate state exists. -/
def FileEntryInternal.Move (n : Name) (target : FileState) (s : StoreState) :
    Except StoreError StoreState :=
  if s.placedIn n = [] then
    .error .notFound
  else if (n, target) ∈ s.disk then
    .error .alreadyExists
  else
    .ok { s with disk := (n, target) :: s.disk.filter (fun p => decide (p.1 ≠ n)) }

/-- Modelled from the spec: FileEntryInternal.Delete (spec sections 4.2 and 7):
removes the data file and every associated metadata file; fails with NotFound
if nothing exists. Multi-file deletion cannot be made truly atomic on a plain
filesystem: the `failAt` oracle simulates an I/O failure after the first `k`
metadata side-files of the blob have been removed, leaving a partial physical
state behind. -/
def FileEntryInternal.Delete (n : Name) (failAt : Option Nat) (s : StoreState) :
    Except StoreError Unit × StoreState :=
  if s.placedIn n = [] ∧ s.metaOf n = [] then
    (.error .notFound, s)
  else
    match failAt with
    | some k =>
        let removed := ((s.metaOf n).take k).map Prod.fst
        (.error .ioFailure,
          { s with meta :=
              s.meta.filter (fun e => decide (¬ (e.1.1 = n ∧ e.1.2 ∈ removed))) })
    | none =>
        (.ok (),
          { s with disk := s.disk.filter (fun p => decide (p.1 ≠ n)),
                   meta := s.meta.filter (fun e => decide (e.1.1 ≠ n)) })

/-- Modelled from the spec: FileEntryInternal.ReadMetadata (spec section 4.2):
reads the side-file for a metadata type; NotFound when absent. -/
def FileEntryInternal.ReadMetadata (n : Name) (mt : MetadataType)
    (s : StoreState) : Except StoreError (List Nat) :=
  match alookup (n, mt) s.meta with
  | some d => .ok d
  | none => .error .notFound

/-- Modelled from the spec: FileEntryInternal.WriteMetadata (source part_000,
line 42; spec section 4.2): writes the side-file for a metadata type and
returns whether content actually changed, enabling no-op writes to skip
downstream side effects. -/
def FileEntryInternal.WriteMetadata (n : Name) (mt : MetadataType)
    (data : List Nat) (s : StoreState) : Except StoreError (Bool × StoreState) :=
  .ok (decide (alookup (n, mt) s.meta ≠ some data),
       { s with meta := aset (n, mt) data s.meta })

/-- Modelled from the spec: FileEntryInternal.DeleteMetadata (spec section
4.2): removes the side-file for a metadata type; NotFound when absent. -/
def FileEntryInternal.DeleteMetadata (n : Name) (mt : MetadataType)
    (s : StoreState) : Except StoreError StoreState :=
  match alookup (n, mt) s.meta with
  | some _ => .ok { s with meta := s.meta.filter (fun e => decide (e.1 ≠ (n, mt))) }
  | none => .error .notFound

/-- Reads the recorded state of an entry without any verification, as the
source's unverified state read on FileEntry (part_000, line 74) does; `none`
when the file map holds no entry for the name. -/
def FileEntry.GetStateUnverified (n : Name) (s : StoreState) : Option FileState :=
  alookup n s.entries

/-- Modelled from the spec: FileEntry.GetState (spec section 4.3): under the
entry's lock, run the verification predicate against the current state, then
return the recorded state. -/
def FileEntry.GetState (v : Verify) (n : Name) (s : StoreState) :
    Except StoreError FileState :=
  match alookup n s.entries with
  | none => .error .notFound
  | some cur =>
      match v cur with
      | some e => .error e
      | none => .ok cur

/-- Modelled from the spec: FileEntry.GetPath (spec sections 4.3 and 6): run
the verification predicate, then return the path bound to the current state
directory. -/
def FileEntry.GetPath (v : Verify) (n : Name) (s : StoreState) :
    Except StoreError String :=
  match alookup n s.entries with
  | none => .error .notFound
  | some cur =>
      match v cur with
      | some e => .error e
      | none => .ok (cur.directory ++ "/" ++ n)

/-- Modelled from the spec: FileEntry.Create (spec section 4.3): run the
verification predicate, then the internal create, and only after the physical
operation fully succeeds set the recorded state to the target state. -/
def FileEntry.Create (v : Verify) (target : FileState) (n : Name)
    (s : StoreState) : Except StoreError Unit × StoreState :=
  match alookup n s.entries with
  | none => (.error .notFound, s)
  | some cur =>
      match v cur with
      | some e => (.error e, s)
      | none =>
          match FileEntryInternal.Create n target s with
          | .error e => (.error e, s)
          | .ok s' => (.ok (), { s' with entries := aset n target s'.entries })

/-- Modelled from the spec: FileEntry.Move (source part_000, line 85; spec
sections 4.3 and 7): run the verification predicate, then the internal move,
and only after the physical operation fully succeeds set the recorded state
to the target state; on any failure the recorded state is unchanged. -/
def FileEntry.Move (v : Verify) (target : FileState) (n : Name)
    (s : StoreState) : Except StoreError Unit × StoreState :=
  match alookup n s.entries with
  | none => (.error .notFound, s)
  | some cur =>
      match v cur with
      | some e => (.error e, s)
      | none =>
          match FileEntryInternal.Move n target s with
          | .error e => (.error e, s)
          | .ok s' => (.ok (), { s' with entries := aset n target s'.entries })

/-- Modelled from the spec: FileEntry.Delete (spec sections 4.3 and 7): run
the verification predicate, then the internal delete; the recorded state is
never updated on failure, even when the physical deletion partially
completed (the `failAt` oracle). -/
def FileEntry.Delete (v : Verify) (failAt : Option Nat) (n : Name)
    (s : StoreState) : Except StoreError Unit × StoreState :=
  match alookup n s.entries with
  | none => (.error .notFound, s)
  | some cur =>
      match v cur with
      | some e => (.error e, s)
      | none => FileEntryInternal.Delete n failAt s

/-- Modelled from the spec: FileEntry.ReadMetadata (spec section 4.3): run the
verification predicate, then delegate to the internal entry; no state
change. -/
def FileEntry.ReadMetadata (v : Verify) (mt : MetadataType) (n : Name)
    (s : StoreState) : Except StoreError (List Nat) :=
  match alookup n s.entries with
  | none => .error .notFound
  | some cur =>
      match v cur with
      | some e => .error e
      | none => FileEntryInternal.ReadMetadata n mt s

/-- Modelled from the spec: FileEntry.WriteMetadata (spec section 4.3): run
the verification predicate, then delegate to the internal entry; no change to
the recorded state. -/
def FileEntry.WriteMetadata (v : Verify) (mt : MetadataType) (data : List Nat)
    (n : Name) (s : StoreState) : Except StoreError Bool × StoreState :=
  match alookup n s.entries with
  | none => (.error .notFound, s)
  | some cur =>
      match v cur with
      | some e => (.error e, s)
      | none =>
          match FileEntryInternal.WriteMetadata n mt data s with
          | .error e => (.error e, s)
          | .ok (changed, s') => (.ok changed, s')

/-- Modelled from the spec: FileEntry.DeleteMetadata (spec section 4.3): run
the verification predicate, then delegate to the internal entry. -/
def FileEntry.DeleteMetadata (v : Verify) (mt : MetadataType) (n : Name)
    (s : StoreState) : Except StoreError Unit × StoreState :=
  match alookup n s.entries with
  | none => (.error .notFound, s)
  | some cur =>
      match v cur with
      | some e => (.error e, s)
      | none =>
          match FileEntryInternal.DeleteMetadata n mt s with
          | .error e => (.error e, s)
          | .ok s' => (.ok (), s')

/-- Modelled from the spec: the store's generated Verify closure (spec section
4.5, step 3): checks the entry's current state is a member of the
caller-supplied acceptable-states list; on mismatch fails with the typed
wrong-state error, distinct from not-found. -/
def storeVerify (states : List FileState) : Verify :=
  fun cur => if cur ∈ states then none else some .wrongState

/-- Modelled from the spec: FileStore.CreateFile (spec section 4.5): load or
store a stateful file entry for the name, constructing a fresh one bound to
the designated create state's directory if none existed, then invoke the
stateful create with the generated verify closure. The data length is kept
for signature fidelity; placements model existence, not content. -/
def FileStore.CreateFile (n : Name) (states : List FileState)
    (createState : FileState) (_len : Int) (s : StoreState) :
    Except StoreError Unit × StoreState :=
  let s₀ :=
    if alookup n s.entries = none then
      { s with entries := (n, createState) :: s.entries }
    else s
  FileEntry.Create (storeVerify states) createState n s₀

/-- Modelled from the spec: FileStore.MoveFile (spec section 4.5): invoke the
stateful move with the generated verify closure; a name with no file map
entry (never created, or already deleted) fails NotFound (spec section 3:
a removed entry is indistinguishable from one that never existed). -/
def FileStore.MoveFile (n : Name) (states : List FileState)
    (goalState : FileState) (s : StoreState) :
    Except StoreError Unit × StoreState :=
  FileEntry.Move (storeVerify states) goalState n s

/-- Modelled from the spec: FileStore.DeleteFile (spec section 4.5, step 4):
invoke the stateful delete with the generated verify closure, and after a
successful physical delete remove the entry from the file map under the same
lock epoch. -/
def FileStore.DeleteFile (n : Name) (states : List FileState) (s : StoreState) :
    Except StoreError Unit × StoreState :=
  match FileEntry.Delete (storeVerify states) none n s with
  | (.ok _, s') =>
      (.ok (), { s' with entries := s'.entries.filter (fun p => decide (p.1 ≠ n)) })
  | (.error e, s') => (.error e, s')

/-- Modelled from the spec: FileStore.GetFilePath (spec section 4.5). -/
def FileStore.GetFilePath (n : Name) (states : List FileState) (s : StoreState) :
    Except StoreError String :=
  FileEntry.GetPath (storeVerify states) n s

/-- Modelled from the spec: FileStore.ReadFileMetadata (source part_000, line
131; spec section 4.5). -/
def FileStore.ReadFileMetadata (n : Name) (states : List FileState)
    (mt : MetadataType) (s : StoreState) : Except StoreError (List Nat) :=
  FileEntry.ReadMetadata (storeVerify states) mt n s

/-- Modelled from the spec: FileStore.WriteFileMetadata (source part_000, line
132; spec section 4.5). -/
def FileStore.WriteFileMetadata (n : Name) (states : List FileState)
    (mt : MetadataType) (data : List Nat) (s : StoreState) :
    Except StoreError Bool × StoreState :=
  FileEntry.WriteMetadata (storeVerify states) mt data n s

/-- Modelled from the spec: FileStore.DeleteFileMetadata (spec section 4.5). -/
def FileStore.DeleteFileMetadata (n : Name) (states : List FileState)
    (mt : MetadataType) (s : StoreState) : Except StoreError Unit × StoreState :=
  FileEntry.DeleteMetadata (storeVerify states) mt n s

/-- The store invariant of spec section 3: a blob never simultaneously exists
on disk under two state directories, i.e. no two disk placements share a
name. -/
def StoreState.DiskUnique (s : StoreState) : Prop :=
  s.disk.Pairwise (fun p q => p.1 ≠ q.1)

instance (s : StoreState) : Decidable s.DiskUnique :=
  inferInstanceAs
    (Decidable (s.disk.Pairwise (fun p q : Name × FileState => p.1 ≠ q.1)))

/-- The store with no entries, no data files and no metadata files. -/
def emptyStore : StoreState := ⟨[], [], []⟩

/-- Modelled from the spec: one atomic step of the store (spec section 5:
every operation runs its verify-then-act sequence under the entry's lock, so
between steps every reader observes a completed state). A step is any store
operation, or a stateful-entry operation with an arbitrary verification
predicate, including a delete failing partway through its physical work. -/
inductive Step : StoreState → StoreState → Prop where
  | createFile (n : Name) (states : List FileState) (cs : FileState) (len : Int)
      (s : StoreState) : Step s (FileStore.CreateFile n states cs len s).2
  | moveFile (n : Name) (states : List FileState) (goal : FileState)
      (s : StoreState) : Step s (FileStore.MoveFile n states goal s).2
  | deleteFile (n : Name) (states : List FileState) (s : StoreState) :
      Step s (FileStore.DeleteFile n states s).2
  | writeFileMetadata (n : Name) (states : List FileState) (mt : MetadataType)
      (data : List Nat) (s : StoreState) :
      Step s (FileStore.WriteFileMetadata n states mt data s).2
  | deleteFileMetadata (n : Name) (states : List FileState) (mt : MetadataType)
      (s : StoreState) : Step s (FileStore.DeleteFileMetadata n states mt s).2
  | entryCreate (v : Verify) (target : FileState) (n : Name) (s : StoreState) :
      Step s (FileEntry.Create v target n s).2
  | entryMove (v : Verify) (target : FileState) (n : Name) (s : StoreState) :
      Step s (FileEntry.Move v target n s).2
  | entryDelete (v : Verify) (failAt : Option Nat) (n : Name) (s : StoreState) :
      Step s (FileEntry.Delete v failAt n s).2
  | entryWriteMetadata (v : Verify) (mt : MetadataType) (data : List Nat)
      (n : Name) (s : StoreState) :
      Step s (FileEntry.WriteMetadata v mt data n s).2
  | entryDeleteMetadata (v : Verify) (mt : MetadataType) (n : Name)
      (s : StoreState) : Step s (FileEntry.DeleteMetadata v mt n s).2

/-- DefaultShardIDLength (source lib/store/internal/const.go, line 5): the
number of bytes of the file digest used for the shard ID; one more level of
directories per byte. -/
def DefaultShardIDLength : Nat := 2

/-- DefaultDirPermission (source lib/store/internal/const.go, line 8): the
default permission mode for new directories, the Go octal literal 0740. -/
def DefaultDirPermission : Nat := 0o740

/-- DefaultDataFileName (source lib/store/internal/const.go, line 11): the
name of the actual blob data file. -/
def DefaultDataFileName : String := "data"

/-- Lowercase hexadecimal digit for a value below 16. -/
def hexDigit (k : Nat) : Char :=
  if k < 10 then Char.ofNat (48 + k) else Char.ofNat (87 + k)

/-- Lowercase two-character hexadecimal encoding of one byte. -/
def hexByte (b : Nat) : String :=
  String.mk [hexDigit (b / 16 % 16), hexDigit (b % 16)]

/-- Lowercase hexadecimal encoding of a byte sequence; blob names are hex
digest strings, so this is the name determined by the digest bytes. -/
def hexEncode : List Nat → String
  | [] => ""
  | b :: r => hexByte b ++ hexEncode r

/-- One shard directory level per leading digest byte, each level named by
the hex encoding of that byte. -/
def shardDirs : List Nat → String
  | [] => ""
  | b :: r => hexByte b ++ "/" ++ shardDirs r

/-- Modelled from the spec: FileEntryInternalFactory.GetRelativePath (source
part_000, lines 54-58; spec sections 3 and 4.1, implementation not among the
available sources): given the digest bytes of a name and a shard-id length N,
returns N directory levels, each named by the hex encoding of one successive
byte, followed by the full name; a degenerate empty name is rejected with an
invalid-argument error. -/
def GetRelativePath (shardIDLength : Nat) (digest : List Nat) :
    Except StoreError String :=
  match digest with
  | [] => .error .invalidArgument
  | _ => .ok (shardDirs (digest.take shardIDLength) ++ hexEncode digest)

/-- Whether a permission mode grants the POSIX permission bit at the given
position (others x/w/r are bits 0-2, group x/w/r bits 3-5, owner x/w/r bits
6-8). -/
def permBit (mode bit : Nat) : Bool := mode / 2 ^ bit % 2 = 1

/-- Modelled from the spec: state directories are created, when absent, with
the default directory permission of const.go (spec section 6). -/
def stateDirCreationMode : Nat := DefaultDirPermission

/-- Modelled from the spec: the error taxonomy of the backend blob client
boundary; the not-found value is a distinguished error value, distinct from
any wrapped or generic HTTP error. -/
inductive BackendError where
  | blobNotFound
  | httpError (status : Nat) (body : List Nat)
deriving DecidableEq

/-- An HTTP response as the blob client observes it: status code, the
Content-Length header value, and the body bytes. -/
structure HTTPResponse where
  status : Nat
  contentLength : Int
  body : List Nat
deriving DecidableEq

/-- Blob info returned by the client's Stat: the blob size. -/
structure BlobInfo where
  size : Int
deriving DecidableEq

/-- Modelled from the spec: the registry blob client's Stat (spec section 6
boundary; implementation not among the available sources, behavior pinned by
its tests): issues a HEAD request; on HTTP 404 returns exactly the
distinguished blob-not-found error value, on 2xx returns the blob info from
the Content-Length header, otherwise a generic HTTP error. -/
def blobClientStat (headResp : HTTPResponse) : Except BackendError BlobInfo :=
  if headResp.status = 404 then .error .blobNotFound
  else if 200 ≤ headResp.status ∧ headResp.status ≤ 299 then
    .ok ⟨headResp.contentLength⟩
  else .error (.httpError headResp.status headResp.body)

/-- Modelled from the spec: the registry blob client's Download (spec section
6 boundary; implementation not among the available sources, behavior pinned
by its tests): issues a GET request; on HTTP 404 returns exactly the
distinguished blob-not-found error value, on 2xx returns the body bytes,
otherwise a generic HTTP error. -/
def blobClientDownload (getResp : HTTPResponse) :
    Except BackendError (List Nat) :=
  if getResp.status = 404 then .error .blobNotFound
  else if 200 ≤ getResp.status ∧ getResp.status ≤ 299 then .ok getResp.body
  else .error (.httpError getResp.status getResp.body)

/-- A sample state, standing for an incomplete-style directory. -/
def stateA : FileState := ⟨"/store/sa"⟩

/-- A second sample state, standing for a complete-style directory. -/
def stateB : FileState := ⟨"/store/sb"⟩

/-- A sample store holding one blob in `stateA` with one metadata file. -/
def sampleStore : StoreState :=
  ⟨[("blob", stateA)], [("blob", stateA)], [(("blob", "mt"), [1])]⟩

/-- A sample 404 response from the remote registry. -/
def resp404 : HTTPResponse := ⟨404, 0, []⟩

theorem alookup_cons_self {α β : Type} [DecidableEq α] (k : α) (v : β)
    (l : List (α × β)) : alookup k ((k, v) :: l) = some v := by
  simp [alookup]

theorem alookup_aset_self {α β : Type} [DecidableEq α] (k : α) (v : β)
    (l : List (α × β)) : alookup k (aset k v l) = some v := by
  simp [aset, alookup]

theorem alookup_filter_out {α β : Type} [DecidableEq α] (k : α)
    (l : List (α × β)) :
    alookup k (l.filter (fun p => decide (p.1 ≠ k))) = none := by
  induction l with
  | nil => rfl
  | cons p r ih =>
    by_cases h : p.1 = k
    · simpa [List.filter_cons, h] using ih
    · simpa [List.filter_cons, h, alookup] using ih

theorem placedList_cons (p : Name × FileState) (r : List (Name × FileState))
    (n : Name) :
    placedList (p :: r) n =
      if p.1 = n then p.2 :: placedList r n else placedList r n := by
  by_cases h : p.1 = n <;> simp [placedList, List.filter_cons, h]

theorem placedList_eq_nil_iff (d : List (Name × FileState)) (n : Name) :
    placedList d n = [] ↔ ∀ p ∈ d, p.1 ≠ n := by
  induction d with
  | nil => simp [placedList]
  | cons p r ih =>
    rw [placedList_cons]
    by_cases h : p.1 = n <;> simp [h, ih]

theorem placedList_filter_out (d : List (Name × FileState)) (n : Name) :
    placedList (d.filter (fun p => decide (p.1 ≠ n))) n = [] := by
  rw [placedList_eq_nil_iff]
  intro p hp
  simpa using (List.of_mem_filter hp)

theorem placedList_length_le_one {d : List (Name × FileState)}
    (h : d.Pairwise (fun p q => p.1 ≠ q.1)) (n : Name) :
    (placedList d n).length ≤ 1 := by
  induction d with
  | nil => simp [placedList]
  | cons p r ih =>
    rw [List.pairwise_cons] at h
    rw [placedList_cons]
    by_cases e : p.1 = n
    · have hnil : placedList r n = [] := by
        rw [placedList_eq_nil_iff]
        intro q hq eq
        exact h.1 q hq (by rw [e, eq])
      simp [e, hnil]
    · simpa [e] using ih h.2

theorem placed_singleton_of_ne_nil {d : List (Name × FileState)}
    (h : d.Pairwise (fun p q => p.1 ≠ q.1)) (n : Name)
    (hne : placedList d n ≠ []) : ∃ old, placedList d n = [old] := by
  have hl := placedList_length_le_one h n
  match hx : placedList d n with
  | [] => exact absurd hx hne
  | [a] => exact ⟨a, rfl⟩
  | a :: b :: t =>
    rw [hx] at hl
    simp at hl

/-- C3: the shard path deriver is a pure function: for every name (given by
its digest bytes, of which there are at least the two the claim speaks of)
and the default shard length 2, the relative path is the hex encoding of the
first byte, then the hex encoding of the second byte, then the full name;
the name ab12cd yields ab/12/ab12cd; an empty name is rejected with an
invalid-argument error. -/
theorem shard_path_is_hex_of_first_two_bytes (b₀ b₁ : Nat) (rest : List Nat) :
    (GetRelativePath DefaultShardIDLength (b₀ :: b₁ :: rest) =
      .ok (hexByte b₀ ++ "/" ++ (hexByte b₁ ++ "/" ++ hexEncode (b₀ :: b₁ :: rest)))) ∧
    GetRelativePath DefaultShardIDLength [] = .error .invalidArgument ∧
    GetRelativePath DefaultShardIDLength [0xab, 0x12, 0xcd] = .ok "ab/12/ab12cd" := by
  refine ⟨?_, rfl, rfl⟩
  show Except.ok (shardDirs [b₀, b₁] ++ hexEncode (b₀ :: b₁ :: rest)) = _
  simp [shardDirs, String.append_assoc]

/-- C7 counterexample: the default directory permission of const.go is the Go
octal literal 0740, whose group bits grant read only: the group execute bit
the claim asserts is not granted. -/
theorem state_dir_mode_lacks_group_execute :
    stateDirCreationMode = 0o740 ∧ permBit stateDirCreationMode 3 = false := by
  decide

/-- C7 amended: every state directory the store creates because it was absent
is created with mode 0740: owner read/write/execute, group read (without
execute), and no access for others. -/
theorem state_dir_mode_is_owner_rwx_group_read_only :
    permBit stateDirCreationMode 8 = true ∧
    permBit stateDirCreationMode 7 = true ∧
    permBit stateDirCreationMode 6 = true ∧
    permBit stateDirCreationMode 5 = true ∧
    permBit stateDirCreationMode 4 = false ∧
    permBit stateDirCreationMode 3 = false ∧
    permBit stateDirCreationMode 2 = false ∧
    permBit stateDirCreationMode 1 = false ∧
    permBit stateDirCreationMode 0 = false := by
  decide

/-- C9: when the remote registry answers both the HEAD and the GET request
with HTTP 404, the registry blob client's Stat and Download each return
exactly the distinguished blob-not-found error value, not a wrapped or
generic HTTP error. -/
theorem http_404_gives_blob_not_found (head get : HTTPResponse)
    (hh : head.status = 404) (hg : get.status = 404) :
    blobClientStat head = .error .blobNotFound ∧
    blobClientDownload get = .error .blobNotFound := by
  constructor
  · simp [blobClientStat, hh]
  · simp [blobClientDownload, hg]

theorem http_404_gives_blob_not_found_witness :
    blobClientStat resp404 = .error .blobNotFound ∧
    blobClientDownload resp404 = .error .blobNotFound :=
  http_404_gives_blob_not_found resp404 resp404 rfl rfl

/-- C10: the no-op Verify of the package always succeeds, and GetState called
with it never fails on verification: whenever the unverified state read
yields a state, GetState with the no-op Verify returns exactly that state. -/
theorem get_state_noop_refines_unverified (n : Name) (s : StoreState)
    (st : FileState) (h : FileEntry.GetStateUnverified n s = some st) :
    (∀ fs, noopVerify fs = none) ∧
    FileEntry.GetState noopVerify n s = .ok st := by
  refine ⟨fun _ => rfl, ?_⟩
  unfold FileEntry.GetStateUnverified at h
  simp [FileEntry.GetState, h, noopVerify]

theorem get_state_noop_refines_unverified_witness :
    (∀ fs, noopVerify fs = none) ∧
    FileEntry.GetState noopVerify "blob" sampleStore = .ok stateA :=
  get_state_noop_refines_unverified "blob" sampleStore stateA rfl

theorem storeVerify_not_mem {states : List FileState} {st : FileState}
    (h : st ∉ states) : storeVerify states st = some .wrongState := by
  simp [storeVerify, h]

theorem storeVerify_mem {states : List FileState} {st : FileState}
    (h : st ∈ states) : storeVerify states st = none := by
  simp [storeVerify, h]

/-- C2: every mutating store operation, when the entry's current state is not
a member of the caller-supplied acceptable-states list, fails with the
wrong-state error, distinct from not-found, and leaves the whole store state
(filesystem placements, metadata files and recorded states) unchanged. -/
theorem wrong_state_rejects_without_mutation (n : Name)
    (states : List FileState) (st goal cs : FileState) (len : Int)
    (mt : MetadataType) (data : List Nat) (s : StoreState)
    (hst : alookup n s.entries = some st) (hni : st ∉ states) :
    FileStore.MoveFile n states goal s = (.error .wrongState, s) ∧
    FileStore.CreateFile n states cs len s = (.error .wrongState, s) ∧
    FileStore.DeleteFile n states s = (.error .wrongState, s) ∧
    FileStore.WriteFileMetadata n states mt data s = (.error .wrongState, s) ∧
    FileStore.DeleteFileMetadata n states mt s = (.error .wrongState, s) ∧
    StoreError.wrongState ≠ StoreError.notFound := by
  have hv := storeVerify_not_mem hni
  refine ⟨?_, ?_, ?_, ?_, ?_, by simp⟩
  · simp [FileStore.MoveFile, FileEntry.Move, hst, hv]
  · simp [FileStore.CreateFile, FileEntry.Create, hst, hv]
  · simp [FileStore.DeleteFile, FileEntry.Delete, hst, hv]
  · simp [FileStore.WriteFileMetadata, FileEntry.WriteMetadata, hst, hv]
  · simp [FileStore.DeleteFileMetadata, FileEntry.DeleteMetadata, hst, hv]

theorem wrong_state_rejects_without_mutation_witness :
    FileStore.MoveFile "blob" [stateB] stateB sampleStore =
      (.error .wrongState, sampleStore) ∧
    FileStore.CreateFile "blob" [stateB] stateB 4 sampleStore =
      (.error .wrongState, sampleStore) ∧
    FileStore.DeleteFile "blob" [stateB] sampleStore =
      (.error .wrongState, sampleStore) ∧
    FileStore.WriteFileMetadata "blob" [stateB] "mt" [2] sampleStore =
      (.error .wrongState, sampleStore) ∧
    FileStore.DeleteFileMetadata "blob" [stateB] "mt" sampleStore =
      (.error .wrongState, sampleStore) ∧
    StoreError.wrongState ≠ StoreError.notFound :=
  wrong_state_rejects_without_mutation "blob" [stateB] stateA stateB stateB 4
    "mt" [2] sampleStore rfl (by decide)

/-- C4: a successful WriteFileMetadata of bytes d followed by
ReadFileMetadata with the same metadata type returns exactly d, and a second
WriteFileMetadata of the same d immediately after succeeds and reports that
the content did not change. -/
theorem write_metadata_read_back_and_idempotent (n : Name)
    (states : List FileState) (mt : MetadataType) (data : List Nat)
    (s : StoreState) (st : FileState) (hst : alookup n s.entries = some st)
    (hin : st ∈ states) :
    (FileStore.WriteFileMetadata n states mt data s).1 = .ok
      (decide (alookup (n, mt) s.meta ≠ some data)) ∧
    FileStore.ReadFileMetadata n states mt
      (FileStore.WriteFileMetadata n states mt data s).2 = .ok data ∧
    (FileStore.WriteFileMetadata n states mt data
      (FileStore.WriteFileMetadata n states mt data s).2).1 = .ok false := by
  have hv := storeVerify_mem hin
  have hw : FileStore.WriteFileMetadata n states mt data s =
      (.ok (decide (alookup (n, mt) s.meta ≠ some data)),
        { s with meta := aset (n, mt) data s.meta }) := by
    simp [FileStore.WriteFileMetadata, FileEntry.WriteMetadata, hst, hv,
      FileEntryInternal.WriteMetadata]
  refine ⟨by rw [hw], ?_, ?_⟩
  · rw [hw]
    simp [FileStore.ReadFileMetadata, FileEntry.ReadMetadata, hst, hv,
      FileEntryInternal.ReadMetadata, alookup_aset_self]
  · rw [hw]
    simp [FileStore.WriteFileMetadata, FileEntry.WriteMetadata, hst, hv,
      FileEntryInternal.WriteMetadata, alookup_aset_self]

theorem write_metadata_read_back_and_idempotent_witness :
    (FileStore.WriteFileMetadata "blob" [stateA] "mt2" [7, 9] sampleStore).1 =
      .ok (decide (alookup ("blob", "mt2") sampleStore.meta ≠ some [7, 9])) ∧
    FileStore.ReadFileMetadata "blob" [stateA] "mt2"
      (FileStore.WriteFileMetadata "blob" [stateA] "mt2" [7, 9] sampleStore).2 =
        .ok [7, 9] ∧
    (FileStore.WriteFileMetadata "blob" [stateA] "mt2" [7, 9]
      (FileStore.WriteFileMetadata "blob" [stateA] "mt2" [7, 9] sampleStore).2).1 =
        .ok false :=
  write_metadata_read_back_and_idempotent "blob" [stateA] "mt2" [7, 9]
    sampleStore stateA rfl (by decide)

/-- C6: when a stateful-entry Move or a (possibly multi-file) Delete fails
partway, the entry's in-memory recorded states are left unchanged: the
recorded state is only updated after the physical operation fully succeeds,
even when a partial Delete already removed some metadata files. -/
theorem failed_operation_keeps_recorded_state (v : Verify) (n : Name)
    (target : FileState) (failAt : Option Nat) (s : StoreState) :
    (∀ e s', FileEntry.Move v target n s = (.error e, s') →
      s'.entries = s.entries) ∧
    (∀ e s', FileEntry.Delete v failAt n s = (.error e, s') →
      s'.entries = s.entries) := by
  constructor
  · intro e s' h
    unfold FileEntry.Move at h
    split at h
    · cases h; rfl
    · split at h
      · cases h; rfl
      · split at h
        · cases h; rfl
        · simp at h
  · intro e s' h
    unfold FileEntry.Delete at h
    split at h
    · cases h; rfl
    · split at h
      · cases h; rfl
      · unfold FileEntryInternal.Delete at h
        split at h
        · cases h; rfl
        · split at h
          · cases h; rfl
          · simp at h

theorem failed_operation_keeps_recorded_state_witness :
    (FileEntry.Delete noopVerify (some 0) "blob" sampleStore).2.entries =
      sampleStore.entries :=
  (failed_operation_keeps_recorded_state noopVerify "blob" stateB (some 0)
    sampleStore).2 .ioFailure
    (FileEntry.Delete noopVerify (some 0) "blob" sampleStore).2 rfl

theorem entryDelete_ok {v : Verify} {n : Name} {s s₁ : StoreState} {u : Unit}
    (h : FileEntry.Delete v none n s = (.ok u, s₁)) :
    s₁.entries = s.entries ∧
    s₁.disk = s.disk.filter (fun p => decide (p.1 ≠ n)) ∧
    s₁.meta = s.meta.filter (fun e => decide (e.1.1 ≠ n)) := by
  unfold FileEntry.Delete at h
  split at h
  · simp at h
  · split at h
    · simp at h
    · unfold FileEntryInternal.Delete at h
      split at h
      · simp at h
      · cases h
        exact ⟨rfl, rfl, rfl⟩

theorem deleteFile_ok {n : Name} {states : List FileState} {s s' : StoreState}
    (h : FileStore.DeleteFile n states s = (.ok (), s')) :
    s'.entries = s.entries.filter (fun p => decide (p.1 ≠ n)) ∧
    s'.disk = s.disk.filter (fun p => decide (p.1 ≠ n)) ∧
    s'.meta = s.meta.filter (fun e => decide (e.1.1 ≠ n)) := by
  unfold FileStore.DeleteFile at h
  split at h
  · next u s₁ heq =>
      obtain ⟨he, hd, hm⟩ := entryDelete_ok heq
      cases h
      exact ⟨by rw [he], hd, hm⟩
  · simp at h

/-- C5: after a successful DeleteFile the name is indistinguishable from one
never created: the file map entry is removed, the blob has no remaining disk
placement, any immediately following non-creating operation on the name
(move, path lookup, metadata read, another delete) fails with a fresh
not-found, and a subsequent CreateFile for the name (with the create state
among its acceptable states) succeeds, creating a fresh entry recorded in the
create state. -/
theorem delete_file_name_as_never_created (n : Name)
    (states : List FileState) (s s' : StoreState)
    (h : FileStore.DeleteFile n states s = (.ok (), s')) :
    alookup n s'.entries = none ∧
    s'.placedIn n = [] ∧
    (∀ states₂ goal, FileStore.MoveFile n states₂ goal s' =
      (.error .notFound, s')) ∧
    (∀ states₂, FileStore.GetFilePath n states₂ s' = .error .notFound) ∧
    (∀ states₂ mt, FileStore.ReadFileMetadata n states₂ mt s' =
      .error .notFound) ∧
    (∀ states₂, FileStore.DeleteFile n states₂ s' = (.error .notFound, s')) ∧
    (∀ states₃ cs len, cs ∈ states₃ →
      ∃ s'', FileStore.CreateFile n states₃ cs len s' = (.ok (), s'') ∧
        alookup n s''.entries = some cs) := by
  obtain ⟨he, hd, hm⟩ := deleteFile_ok h
  have hen : alookup n s'.entries = none := by
    rw [he]; exact alookup_filter_out n s.entries
  have hpl : s'.placedIn n = [] := by
    unfold StoreState.placedIn
    rw [hd]; exact placedList_filter_out s.disk n
  refine ⟨hen, hpl, ?_, ?_, ?_, ?_, ?_⟩
  · intro states₂ goal
    simp [FileStore.MoveFile, FileEntry.Move, hen]
  · intro states₂
    simp [FileStore.GetFilePath, FileEntry.GetPath, hen]
  · intro states₂ mt
    simp [FileStore.ReadFileMetadata, FileEntry.ReadMetadata, hen]
  · intro states₂
    simp [FileStore.DeleteFile, FileEntry.Delete, hen]
  · intro states₃ cs len hcs
    refine ⟨{ s' with
        disk := (n, cs) :: s'.disk,
        entries := aset n cs ((n, cs) :: s'.entries) }, ?_, ?_⟩
    · simp only [FileStore.CreateFile, hen, reduceIte, FileEntry.Create,
        alookup_cons_self, storeVerify_mem hcs, FileEntryInternal.Create]
      rw [if_pos]
      exact hpl
    · exact alookup_aset_self n cs ((n, cs) :: s'.entries)

theorem delete_file_name_as_never_created_witness :
    alookup "blob" (emptyStore.entries) = none ∧
    emptyStore.placedIn "blob" = [] ∧
    (∀ states₂ goal, FileStore.MoveFile "blob" states₂ goal emptyStore =
      (.error .notFound, emptyStore)) ∧
    (∀ states₂, FileStore.GetFilePath "blob" states₂ emptyStore =
      .error .notFound) ∧
    (∀ states₂ mt, FileStore.ReadFileMetadata "blob" states₂ mt emptyStore =
      .error .notFound) ∧
    (∀ states₂, FileStore.DeleteFile "blob" states₂ emptyStore =
      (.error .notFound, emptyStore)) ∧
    (∀ states₃ cs len, cs ∈ states₃ →
      ∃ s'', FileStore.CreateFile "blob" states₃ cs len emptyStore =
        (.ok (), s'') ∧ alookup "blob" s''.entries = some cs) :=
  delete_file_name_as_never_created "blob" [stateA] sampleStore emptyStore rfl

theorem diskUnique_cons {s : StoreState} {n : Name} {st : FileState}
    (h : s.DiskUnique) (hout : s.placedIn n = []) :
    List.Pairwise (fun p q => p.1 ≠ q.1) ((n, st) :: s.disk) := by
  refine List.Pairwise.cons ?_ h
  intro q hq e
  exact (placedList_eq_nil_iff s.disk n).1 hout q hq e.symm

theorem diskUnique_cons_filter {s : StoreState} {n : Name} {st : FileState}
    (h : s.DiskUnique) :
    List.Pairwise (fun p q => p.1 ≠ q.1)
      ((n, st) :: s.disk.filter (fun p => decide (p.1 ≠ n))) := by
  refine List.Pairwise.cons ?_ (h.filter _)
  intro q hq e
  have hq' : q.1 ≠ n := by simpa using List.of_mem_filter hq
  exact hq' e.symm

theorem internalCreate_diskUnique {n : Name} {target : FileState}
    {s s' : StoreState} (h : s.DiskUnique)
    (hc : FileEntryInternal.Create n target s = .ok s') : s'.DiskUnique := by
  unfold FileEntryInternal.Create at hc
  split at hc
  · next hnil =>
      cases hc
      exact diskUnique_cons h hnil
  · cases hc

theorem internalMove_diskUnique {n : Name} {target : FileState}
    {s s' : StoreState} (h : s.DiskUnique)
    (hm : FileEntryInternal.Move n target s = .ok s') : s'.DiskUnique := by
  unfold FileEntryInternal.Move at hm
  split at hm
  · cases hm
  · split at hm
    · cases hm
    · cases hm
      exact diskUnique_cons_filter h

theorem entryCreate_diskUnique (v : Verify) (target : FileState) (n : Name)
    {s : StoreState} (h : s.DiskUnique) :
    (FileEntry.Create v target n s).2.DiskUnique := by
  unfold FileEntry.Create
  split
  · exact h
  · split
    · exact h
    · split
      · exact h
      · next s' heq =>
          have h' := internalCreate_diskUnique h heq
          exact h'

theorem entryMove_diskUnique (v : Verify) (target : FileState) (n : Name)
    {s : StoreState} (h : s.DiskUnique) :
    (FileEntry.Move v target n s).2.DiskUnique := by
  unfold FileEntry.Move
  split
  · exact h
  · split
    · exact h
    · split
      · exact h
      · next s' heq =>
          have h' := internalMove_diskUnique h heq
          exact h'

theorem entryDelete_diskUnique (v : Verify) (failAt : Option Nat) (n : Name)
    {s : StoreState} (h : s.DiskUnique) :
    (FileEntry.Delete v failAt n s).2.DiskUnique := by
  unfold FileEntry.Delete
  split
  · exact h
  · split
    · exact h
    · unfold FileEntryInternal.Delete
      split
      · exact h
      · split
        · exact h
        · exact h.filter _

theorem entryWriteMetadata_diskUnique (v : Verify) (mt : MetadataType)
    (data : List Nat) (n : Name) {s : StoreState} (h : s.DiskUnique) :
    (FileEntry.WriteMetadata v mt data n s).2.DiskUnique := by
  unfold FileEntry.WriteMetadata
  split
  · exact h
  · split
    · exact h
    · split
      · next heq => cases heq
      · next changed s' heq =>
          unfold FileEntryInternal.WriteMetadata at heq
          cases heq
          exact h

theorem entryDeleteMetadata_diskUnique (v : Verify) (mt : MetadataType)
    (n : Name) {s : StoreState} (h : s.DiskUnique) :
    (FileEntry.DeleteMetadata v mt n s).2.DiskUnique := by
  unfold FileEntry.DeleteMetadata
  split
  · exact h
  · split
    · exact h
    · split
      · exact h
      · next s' heq =>
          unfold FileEntryInternal.DeleteMetadata at heq
          split at heq
          · cases heq
            exact h
          · cases heq

theorem storeCreateFile_diskUnique (n : Name) (states : List FileState)
    (cs : FileState) (len : Int) {s : StoreState} (h : s.DiskUnique) :
    (FileStore.CreateFile n states cs len s).2.DiskUnique := by
  unfold FileStore.CreateFile
  split
  · exact entryCreate_diskUnique _ _ _ (s := { s with entries := _ }) h
  · exact entryCreate_diskUnique _ _ _ h

theorem storeDeleteFile_diskUnique (n : Name) (states : List FileState)
    {s : StoreState} (h : s.DiskUnique) :
    (FileStore.DeleteFile n states s).2.DiskUnique := by
  unfold FileStore.DeleteFile
  split
  · next u s₁ heq =>
      have h₁ := entryDelete_diskUnique (storeVerify states) none n h
      rw [heq] at h₁
      exact h₁
  · next e s₁ heq =>
      have h₁ := entryDelete_diskUnique (storeVerify states) none n h
      rw [heq] at h₁
      exact h₁

theorem step_diskUnique {s s' : StoreState} (h : s.DiskUnique)
    (hs : Step s s') : s'.DiskUnique := by
  cases hs with
  | createFile n states cs len s => exact storeCreateFile_diskUnique n states cs len h
  | moveFile n states goal s => exact entryMove_diskUnique _ _ _ h
  | deleteFile n states s => exact storeDeleteFile_diskUnique n states h
  | writeFileMetadata n states mt data s => exact entryWriteMetadata_diskUnique _ _ _ _ h
  | deleteFileMetadata n states mt s => exact entryDeleteMetadata_diskUnique _ _ _ h
  | entryCreate v target n s => exact entryCreate_diskUnique _ _ _ h
  | entryMove v target n s => exact entryMove_diskUnique _ _ _ h
  | entryDelete v failAt n s => exact entryDelete_diskUnique _ _ _ h
  | entryWriteMetadata v mt data n s => exact entryWriteMetadata_diskUnique _ _ _ _ h
  | entryDeleteMetadata v mt n s => exact entryDeleteMetadata_diskUnique _ _ _ h

theorem internalMove_ok {n : Name} {target : FileState} {s s₁ : StoreState}
    (hm : FileEntryInternal.Move n target s = .ok s₁) :
    s.placedIn n ≠ [] ∧
    s₁.disk = (n, target) :: s.disk.filter (fun p => decide (p.1 ≠ n)) := by
  unfold FileEntryInternal.Move at hm
  split at hm
  · cases hm
  · next hne =>
      split at hm
      · cases hm
      · cases hm
        exact ⟨hne, rfl⟩

theorem moveFile_ok_placements {n : Name} {states : List FileState}
    {goal : FileState} {s s' : StoreState} (h : s.DiskUnique)
    (hm : FileStore.MoveFile n states goal s = (.ok (), s')) :
    ∃ old, s.placedIn n = [old] ∧ s'.placedIn n = [goal] := by
  unfold FileStore.MoveFile FileEntry.Move at hm
  split at hm
  · simp at hm
  · split at hm
    · simp at hm
    · split at hm
      · simp at hm
      · next s₁ heq =>
          obtain ⟨hne, hdisk⟩ := internalMove_ok heq
          obtain ⟨old, hold⟩ := placed_singleton_of_ne_nil h n hne
          cases hm
          refine ⟨old, hold, ?_⟩
          unfold StoreState.placedIn
          show placedList s₁.disk n = [goal]
          rw [hdisk, placedList_cons, if_pos rfl, placedList_filter_out]

/-- C1: at every point of the store's lifecycle a blob exists on disk under
at most one state directory: the empty store satisfies the uniqueness
invariant, every atomic step of the store preserves it, and a successful
Move is observable as atomic: it is one step taking the blob from exactly
one placement (its old state) to exactly one placement (the new state), so a
reader observing any reachable state sees the blob in exactly one of old or
new state, never neither and never both. -/
theorem blob_single_state_and_move_atomic :
    emptyStore.DiskUnique ∧
    (∀ s s', s.DiskUnique → Step s s' → s'.DiskUnique) ∧
    (∀ n states goal s s', s.DiskUnique →
      FileStore.MoveFile n states goal s = (.ok (), s') →
      ∃ old, s.placedIn n = [old] ∧ s'.placedIn n = [goal]) :=
  ⟨List.Pairwise.nil,
   fun _ _ h hs => step_diskUnique h hs,
   fun _ _ _ _ _ h hm => moveFile_ok_placements h hm⟩

theorem blob_single_state_and_move_atomic_witness :
    ∃ old, sampleStore.placedIn "blob" = [old] ∧
      (FileStore.MoveFile "blob" [stateA] stateB sampleStore).2.placedIn
        "blob" = [stateB] :=
  blob_single_state_and_move_atomic.2.2 "blob" [stateA] stateB sampleStore
    (FileStore.MoveFile "blob" [stateA] stateB sampleStore).2
    (by decide) rfl

end Kraken
